import Mathlib

/-!
Verification of the IB-to-DSR population pipeline (stages: PDF indexing,
mapping parsing, content matching, template population).

Shallow embedding conventions:
* Python strings are modelled as `List Char`; string literals enter via
  `String.data`.
* Python dictionaries with insertion order (the mapping, the section index)
  are modelled as association lists; assignment to an existing key replaces
  the value in place (`dictInsert`).
* The regular expressions of the source are unfolded into explicit scanning
  functions over `List Char`, following the exact anchoring, greediness and
  backtracking behaviour of each pattern (noted at each definition).
* The OpenAI client is an external collaborator: it is modelled as an
  optional gateway function returning `Except` (an exception or a response).
* Per-field resolution inside `match_all_fields` can raise in the reference
  (network failures, malformed data); the three per-strategy resolvers are
  therefore taken as `Except`-valued parameters at that boundary.
-/

/-- Python `str.lower()` on the ASCII range: lowercase every character. -/
def pyLower (s : List Char) : List Char := s.map Char.toLower

/-- Python `needle in hay` for strings: contiguous substring containment. -/
def containsStr (needle : List Char) : List Char → Bool
  | [] => needle.isEmpty
  | c :: rest => needle.isPrefixOf (c :: rest) || containsStr needle rest

/-- Python `str.strip()`: drop whitespace from both ends. -/
def pyStrip (s : List Char) : List Char :=
  ((s.dropWhile Char.isWhitespace).reverse.dropWhile Char.isWhitespace).reverse

/-- Python `str.strip(chars)`: drop characters of `cs` from both ends. -/
def pyStripChars (cs : List Char) (s : List Char) : List Char :=
  ((s.dropWhile (cs.contains ·)).reverse.dropWhile (cs.contains ·)).reverse

/-- Python `int(...)` on a run of ASCII digits. -/
def digitsToNat (ds : List Char) : Nat :=
  ds.foldl (fun acc c => acc * 10 + (c.toNat - 48)) 0

/-- Fuelled scanner behind `removeAllSub`; every step strictly shortens the
list, so fuel equal to the list length never runs out (the fuel-exhausted
branch is unreachable). Structural recursion keeps the definition
kernel-reducible for concrete inputs. -/
def removeAllSubF (pat : List Char) : Nat → List Char → List Char
  | _, [] => []
  | 0, s => s
  | fuel + 1, c :: rest =>
    if !pat.isEmpty && pat.isPrefixOf (c :: rest) then
      removeAllSubF pat fuel (rest.drop (pat.length - 1))
    else c :: removeAllSubF pat fuel rest

/-- Python `str.replace(pat, '')`: remove every (leftmost, non-overlapping)
occurrence of `pat`. -/
def removeAllSub (pat : List Char) (s : List Char) : List Char :=
  removeAllSubF pat s.length s

/-- Insert a page into a strictly ascending duplicate-free list, keeping it
strictly ascending and duplicate-free. `sortedDedup` below uses it to model
Python's `sorted(list(set(...)))`. -/
def insertPage (x : Nat) : List Nat → List Nat
  | [] => [x]
  | y :: ys => if x < y then x :: y :: ys else if x = y then y :: ys else y :: insertPage x ys

/-- Python `sorted(list(set(l)))`: the strictly ascending enumeration of the
distinct elements of `l`. -/
def sortedDedup (l : List Nat) : List Nat :=
  l.foldl (fun acc x => insertPage x acc) []

/-- The `unavailable_keywords` list of `MappingParser._determine_mapping_type`. -/
def unavailable_keywords : List (List Char) :=
  ["not in ib".data, "external source".data, "safety database".data,
   "case report".data, "requires query".data, "not available".data, "n/a".data]

/-- The `synthesis_keywords` list of `MappingParser._determine_mapping_type`. -/
def synthesis_keywords : List (List Char) :=
  ["synthesis".data, "combine".data, "summarize".data,
   "multiple sections".data, "rewrite".data, "adapt".data]

/-- The first check of `_determine_mapping_type`: some unavailable keyword
occurs in the lowercased section cell or the lowercased notes cell. -/
def hasUnavailableKeyword (section_lower notes_lower : List Char) : Bool :=
  unavailable_keywords.any fun k => containsStr k section_lower || containsStr k notes_lower

/-- The second check of `_determine_mapping_type`: some synthesis keyword
occurs in the lowercased notes cell. -/
def hasSynthesisKeyword (notes_lower : List Char) : Bool :=
  synthesis_keywords.any fun k => containsStr k notes_lower

/-- The third check of `_determine_mapping_type`: the section cell contains
`+` or `,`, or its lowercasing contains `and`. -/
def mentionsMultipleSections (ib_section section_lower : List Char) : Bool :=
  ib_section.contains '+' || ib_section.contains ',' || containsStr "and".data section_lower

/-- `MappingParser._determine_mapping_type(ib_section, notes)`: classify a
mapping row, checking unavailable keywords first, then synthesis keywords,
then multiple-section markers, defaulting to direct extraction. -/
def determine_mapping_type (ib_section notes : List Char) : List Char :=
  let section_lower := pyLower ib_section
  let notes_lower := pyLower notes
  if hasUnavailableKeyword section_lower notes_lower then "unavailable".data
  else if hasSynthesisKeyword notes_lower then "synthesis_required".data
  else if mentionsMultipleSections ib_section section_lower then "synthesis_required".data
  else "direct_extract".data

/-- Anchored match of the range pattern `(\d+)\s*-\s*(\d+)` of
`MappingParser._parse_pages` (greedy `\d+` equals a maximal digit run here;
backtracking can never produce a match the maximal runs miss, because a
shortened run leaves a digit where `-` or the end boundary is required). -/
def rangeMatch (part : List Char) : Option (Nat × Nat) :=
  let d1 := part.takeWhile Char.isDigit
  if d1.isEmpty then none
  else
    match (part.dropWhile Char.isDigit).dropWhile Char.isWhitespace with
    | '-' :: r2 =>
      let d2 := (r2.dropWhile Char.isWhitespace).takeWhile Char.isDigit
      if d2.isEmpty then none else some (digitsToNat d1, digitsToNat d2)
    | _ => none

/-- `re.search(r'\d+', part)`: the first maximal digit run, as a number. -/
def firstDigitRun : List Char → Option Nat
  | [] => none
  | c :: rest =>
    if c.isDigit then some (digitsToNat ((c :: rest).takeWhile Char.isDigit))
    else firstDigitRun rest

/-- One comma-separated piece of a pages cell, after stripping: a dash makes
it a range (contributing `[start..end]`, nothing on a failed range match),
otherwise the first digit run contributes a single page. -/
def parsePagePart (part : List Char) : List Nat :=
  if part.contains '-' then
    match rangeMatch part with
    | some (s, e) => List.range' s (e + 1 - s)
    | none => []
  else
    match firstDigitRun part with
    | some n => [n]
    | none => []

/-- `MappingParser._parse_pages(pages_str)`: empty, `N/A` or `-` yield no
pages; otherwise split on commas, strip each piece, parse it as a range or a
single page, and return the sorted duplicate-free result. -/
def parse_pages (pages_str : List Char) : List Nat :=
  if pages_str.isEmpty || pages_str = "N/A".data || pages_str = "-".data then []
  else sortedDedup ((((pages_str.splitOn ',').map pyStrip).map parsePagePart).flatten)

/-- A character admitted by the `[A-Z0-9_]` class of the placeholder
pattern. -/
def isPlaceholderChar (c : Char) : Bool :=
  ('A' ≤ c && c ≤ 'Z') || ('0' ≤ c && c ≤ '9') || c = '_'

/-- Anchored match of `\[INSERT_[A-Z0-9_]+\]` at the head of `s`, returning
the matched token (greedy `[A-Z0-9_]+` equals the maximal admissible run:
shortening it leaves an admissible character where `]` is required). -/
def placeholderAt : List Char → Option (List Char)
  | '[' :: 'I' :: 'N' :: 'S' :: 'E' :: 'R' :: 'T' :: '_' :: rest =>
    let run := rest.takeWhile isPlaceholderChar
    match rest.dropWhile isPlaceholderChar with
    | ']' :: _ => if run.isEmpty then none else some ("[INSERT_".data ++ run ++ [']'])
    | _ => none
  | _ => none

/-- `re.search(r'\[INSERT_[A-Z0-9_]+\]', field)`: the leftmost placeholder
token of the field cell, if any. -/
def findPlaceholder : List Char → Option (List Char)
  | [] => none
  | c :: rest =>
    match placeholderAt (c :: rest) with
    | some p => some p
    | none => findPlaceholder rest

/-- Decidable form of "is exactly one `[INSERT_<A-Z0-9_>+]` token". -/
def isPlaceholderToken (s : List Char) : Bool :=
  match s with
  | '[' :: 'I' :: 'N' :: 'S' :: 'E' :: 'R' :: 'T' :: '_' :: rest =>
    (rest.getLast? == some ']') && !rest.dropLast.isEmpty && rest.dropLast.all isPlaceholderChar
  | _ => false

/-- Anchored match of the row pattern
`\|([^|]+)\|([^|]+)\|([^|]+)\|([^|]*)\|` of `parse_mapping_file`: the line
starts with `|` and has at least four further `|`; the first three cells are
non-empty, the fourth may be empty, anything may follow the fifth `|`. -/
def matchTableRow (line : List Char) : Option (List Char × List Char × List Char × List Char) :=
  match line.splitOn '|' with
  | [] :: c1 :: c2 :: c3 :: c4 :: _ :: _ =>
    if c1.isEmpty || c2.isEmpty || c3.isEmpty then none else some (c1, c2, c3, c4)
  | _ => none

/-- One field-mapping record of the parsed mapping, mirroring the dictionary
`parse_mapping_file` stores per placeholder. `notes` is an `Option` because
the consumers read it through `dict.get` (absent key versus stored string
matters for the default-notes behaviour); the parser always stores `some`. -/
structure FieldMapping where
  field_description : List Char
  ib_section : List Char
  ib_pages : List Nat
  mapping_type : List Char
  notes : Option (List Char)
deriving DecidableEq, Repr

/-- The header labels `parse_mapping_file` skips outright. -/
def headerLabels : List (List Char) :=
  ["DSR Template Field".data, "DSR Field".data, "---".data, []]

/-- One line of the mapping file: the row-pattern match, the header and
divider skips, the placeholder search, and the record construction of
`parse_mapping_file`, in source order. `none` means the line contributes no
field mapping. -/
def parseRow (line : List Char) : Option (List Char × FieldMapping) :=
  match matchTableRow line with
  | none => none
  | some (c1, c2, c3, c4) =>
    let field := pyStrip c1
    let ib_section := pyStrip c2
    let pages := pyStrip c3
    let notes := pyStrip c4
    if field ∈ headerLabels then none
    else if containsStr "---".data field || containsStr "===".data field then none
    else
      match findPlaceholder field with
      | none => none
      | some placeholder =>
        some (placeholder,
          { field_description := pyStripChars " -:".data (removeAllSub placeholder field)
            ib_section := ib_section
            ib_pages := parse_pages pages
            mapping_type := determine_mapping_type ib_section notes
            notes := some notes })

/-- Python dictionary assignment `d[k] = v` on an insertion-ordered
association list: replace in place if the key exists, else append. -/
def dictInsert {β : Type} (k : List Char) (v : β) : List (List Char × β) → List (List Char × β)
  | [] => [(k, v)]
  | (k1, v1) :: rest => if k1 = k then (k, v) :: rest else (k1, v1) :: dictInsert k v rest

/-- `MappingParser.parse_mapping_file` on the file content: scan the lines,
parse each candidate row, and accumulate the placeholder-keyed mapping.
The reference raises nothing here: a content with zero parseable rows
produces an empty mapping (only a count is printed). -/
def parse_mapping_file (content : List Char) : List (List Char × FieldMapping) :=
  (content.splitOn '\n').foldl
    (fun acc line =>
      match parseRow line with
      | some kv => dictInsert kv.1 kv.2 acc
      | none => acc) []

/-- `IBIndexer._section_sort_key(section_num)`: the tuple of dotted integer
components, `tuple(int(x) for x in section_num.split('.'))`, modelled on the
numeric headings the indexer produces. -/
def section_sort_key (section_num : List Char) : List Nat :=
  (section_num.splitOn '.').map digitsToNat

/-- Python tuple comparison `key a <= key b` on integer tuples:
lexicographic, a strict prefix being smaller. -/
def tupleLe : List Nat → List Nat → Bool
  | [], _ => true
  | _ :: _, [] => false
  | a :: as, b :: bs => if a < b then true else if b < a then false else tupleLe as bs

/-- One flat section record of `IBIndexer.identify_sections` (title, page
list, and the never-populated content accumulator). -/
structure FlatSection where
  title : List Char
  pages : List Nat
  content : List (List Char)
deriving DecidableEq, Repr

/-- Ordered insertion used by `sort_sections`: place `x` before the first
item whose key is not below the key of `x`; with `List.foldr` this is a
stable sort, agreeing with Python's stable `sorted`. -/
def insertItem {β : Type} (x : List Char × β) :
    List (List Char × β) → List (List Char × β)
  | [] => [x]
  | y :: ys =>
    if tupleLe (section_sort_key x.1) (section_sort_key y.1) then x :: y :: ys
    else y :: insertItem x ys

/-- The `sorted(self.sections.items(), key=lambda x: self._section_sort_key(x[0]))`
step of `IBIndexer._build_hierarchical_sections`: a stable sort of the
section items by numeric-tuple key. -/
def sort_sections {β : Type} (items : List (List Char × β)) : List (List Char × β) :=
  items.foldr insertItem []

/-- One nested subsection node of the hierarchical index (title and pages). -/
structure SectionNode where
  title : List Char
  pages : List Nat
deriving DecidableEq, Repr

/-- One top-level node of the hierarchical index: title, pages and the
subsections dictionary. -/
structure TopSection where
  title : List Char
  pages : List Nat
  subsections : List (List Char × SectionNode)
deriving DecidableEq, Repr

/-- The slice of the persisted index `ContentMatcher` consults:
`self.ib_index.get('sections', {})` (metadata, tables and the page count are
never read by the matcher). -/
structure IBIndex where
  sections : List (List Char × TopSection)
deriving DecidableEq, Repr

/-- `ContentMatcher._get_content_from_pages(page_numbers)`: the reference's
page-content provider, a stub returning a fixed string per page, limited to
the first three pages. -/
def get_content_from_pages (page_numbers : List Nat) : List (List Char) :=
  (page_numbers.take 3).map fun p => ("[Content from page " ++ toString p ++ "]").data

/-- Python `"\n\n".join(parts)`. -/
def joinBlank (parts : List (List Char)) : List Char :=
  (parts.intersperse "\n\n".data).flatten

/-- `ContentMatcher._get_section_content(section_number)`: walk the top-level
sections in order; a top-level key equal to the request with non-empty page
content answers with `title\n\ncontent`; otherwise the subsections of each
top-level node are consulted the same way; an unresolved request yields the
empty string. -/
def get_section_content (sections : List (List Char × TopSection)) (section_number : List Char) :
    List Char :=
  match sections with
  | [] => []
  | (top_key, top_data) :: rest =>
    let fromTop :=
      if top_key = section_number then
        let content := get_content_from_pages top_data.pages
        if content.isEmpty then [] else top_data.title ++ "\n\n".data ++ joinBlank content
      else []
    if fromTop.isEmpty then
      let fromSub :=
        match List.lookup section_number top_data.subsections with
        | some node =>
          let content := get_content_from_pages node.pages
          if content.isEmpty then [] else node.title ++ "\n\n".data ++ joinBlank content
        | none => []
      if fromSub.isEmpty then get_section_content rest section_number else fromSub
    else fromTop

/-- A `\w` character (ASCII range) for the word boundaries of
`_extract_section_numbers`. -/
def isWordChar (c : Char) : Bool := c.isAlphanum || c = '_'

/-- Fuelled scanner behind `dotGroups`; every step consumes at least two
characters, so fuel equal to the list length never runs out. -/
def dotGroupsF : Nat → List Char → List (List Char) × List Char
  | 0, s => ([], s)
  | fuel + 1, s =>
    match s with
    | '.' :: c :: rest =>
      if c.isDigit then
        let p := dotGroupsF fuel ((c :: rest).dropWhile Char.isDigit)
        (('.' :: (c :: rest).takeWhile Char.isDigit) :: p.1, p.2)
      else ([], '.' :: c :: rest)
    | t => ([], t)

/-- The `(?:\.\d+)*` tail of the section-number pattern: greedily consume
`.`-digit-run groups, returning the groups and the rest. -/
def dotGroups (s : List Char) : List (List Char) × List Char :=
  dotGroupsF s.length s

/-- Anchored match of `\d+(?:\.\d+)*\b` at a digit position (the leading
`\b` is checked by the caller). Greedy matching takes every group; if the
trailing word boundary fails (a word character follows), the regex engine
backs off exactly one group, after which a `.` follows and the boundary
holds; with no group to drop there is no match. Backtracking inside a digit
run can never help, because it leaves a digit at the boundary. -/
def matchNumberAt (s : List Char) : Option (List Char) :=
  let d0 := s.takeWhile Char.isDigit
  if d0.isEmpty then none
  else
    let p := dotGroups (s.dropWhile Char.isDigit)
    let boundary := match p.2 with
      | [] => true
      | c :: _ => !(isWordChar c)
    if boundary then some (d0 ++ p.1.flatten)
    else if p.1.isEmpty then none
    else some (d0 ++ p.1.dropLast.flatten)

/-- Fuelled scanner behind `findNumbers`; a failed start consumes one
character and a match consumes the non-empty token, so fuel equal to the
list length never runs out. -/
def findNumbersF : Nat → List Char → Bool → List (List Char)
  | _, [], _ => []
  | 0, _, _ => []
  | fuel + 1, c :: rest, prevW =>
    if c.isDigit && !prevW then
      match matchNumberAt (c :: rest) with
      | some tok => tok :: findNumbersF fuel ((c :: rest).drop tok.length) true
      | none => findNumbersF fuel rest (isWordChar c)
    else findNumbersF fuel rest (isWordChar c)

/-- The scanning loop of `re.findall(r'\b(\d+(?:\.\d+)*)\b', ...)`: try each
start position left to right; a start needs a digit preceded by a non-word
character (`prevW` tracks the character before the current position, `false`
at the string start); after a match the scan resumes right after it (a
matched token ends in a digit, so the previous character is then a word
character). -/
def findNumbers (s : List Char) (prevW : Bool) : List (List Char) :=
  findNumbersF s.length s prevW

/-- `ContentMatcher._extract_section_numbers(ib_section)`: every
`\b\d+(?:\.\d+)*\b` token of the section cell, in order. -/
def extract_section_numbers (ib_section : List Char) : List (List Char) :=
  findNumbers ib_section false

/-- Fuelled scanner behind `collapseWs`; every step consumes at least one
character, so fuel equal to the list length never runs out. -/
def collapseWsF : Nat → List Char → List Char
  | _, [] => []
  | 0, s => s
  | fuel + 1, c :: rest =>
    if c.isWhitespace then ' ' :: collapseWsF fuel (rest.dropWhile Char.isWhitespace)
    else c :: collapseWsF fuel rest

/-- `re.sub(r'\s+', ' ', text)`: replace each maximal whitespace run by a
single space. -/
def collapseWs (s : List Char) : List Char :=
  collapseWsF s.length s

/-- Anchored match of `Page \d+ of \d+` at the head of `s`, returning the
length of the matched text (greedy digit runs; backtracking cannot help for
the same boundary reason as above). -/
def pageArtifactAt (s : List Char) : Option Nat :=
  if "Page ".data.isPrefixOf s then
    let r1 := s.drop 5
    let d1 := r1.takeWhile Char.isDigit
    if d1.isEmpty then none
    else
      let r2 := r1.drop d1.length
      if " of ".data.isPrefixOf r2 then
        let d2 := (r2.drop 4).takeWhile Char.isDigit
        if d2.isEmpty then none else some (5 + d1.length + 4 + d2.length)
      else none
  else none

/-- Fuelled scanner behind `removePageArtifacts`; a failed position consumes
one character and a match consumes its positive length, so fuel equal to the
list length never runs out. -/
def removePageArtifactsF : Nat → List Char → List Char
  | _, [] => []
  | 0, s => s
  | fuel + 1, c :: rest =>
    match pageArtifactAt (c :: rest) with
    | some n => removePageArtifactsF fuel ((c :: rest).drop n)
    | none => c :: removePageArtifactsF fuel rest

/-- `re.sub(r'Page \d+ of \d+', '', text)`: delete each leftmost
non-overlapping page-footer artifact. -/
def removePageArtifacts (s : List Char) : List Char :=
  removePageArtifactsF s.length s

/-- `ContentMatcher._clean_text(text)`: empty in, empty out; otherwise
collapse whitespace runs to single spaces, delete `Page N of M` artifacts,
and trim. -/
def clean_text (text : List Char) : List Char :=
  if text.isEmpty then []
  else pyStrip (removePageArtifacts (collapseWs text))

/-- `ContentMatcher.direct_extract(field_name, mapping_info)`: resolve every
section token of the section cell against the index, keep the non-empty
results; with none, fall back to the record's own page list; with still
nothing, the not-found sentinel; otherwise the fragments joined by blank
lines and cleaned. -/
def direct_extract (idx : IBIndex) (info : FieldMapping) : List Char :=
  let fromSections :=
    ((extract_section_numbers info.ib_section).map (get_section_content idx.sections)).filter
      (fun c => !c.isEmpty)
  let content_parts :=
    if fromSections.isEmpty && !info.ib_pages.isEmpty then get_content_from_pages info.ib_pages
    else fromSections
  if content_parts.isEmpty then "[Content not found in IB]".data
  else clean_text (joinBlank content_parts)

/-- `ContentMatcher._create_extraction_prompt(...)`: the synthesis request
text, with the field name, description, source excerpt and notes spliced
into the fixed instruction template of the source. -/
def create_extraction_prompt (field_name field_description ib_content context : List Char) :
    List Char :=
  "You are preparing a Drug Safety Report (DSR) for pralsetinib (GAVRETO, RO7499790).\n\nYour task: Extract and synthesize content for the DSR field: ".data ++
  field_name ++ "\nField purpose: ".data ++ field_description ++
  "\n\nAdditional context: ".data ++ context ++
  "\n\nSource content from Investigator Brochure:\n".data ++ ib_content ++
  "\n\nInstructions:\n1. Extract relevant information from the IB sections above\n2. Synthesize into cohesive, well-written content appropriate for a DSR\n3. Use formal medical/scientific writing style\n4. Be concise but comprehensive\n5. Do not include reference citations (we\x27ll add those separately)\n6. Do not use placeholder text or phrases like \"based on the IB\"\n7. If the IB content is insufficient, note what specific information is missing\n8. Present the information in a clear, professional manner suitable for regulatory submission\n\nOutput the extracted/synthesized content only, with no preamble or explanation.".data

/-- `ContentMatcher.ai_extract(field_name, mapping_info)`: with no client
the skip sentinel is returned before anything else runs (the index, the page
provider and the record are never consulted — the result below is a constant
independent of them). With a client: resolve sections (keeping the
`### Section n` heading per fragment), fall back to pages, bail out with the
no-source sentinel, truncate at 10000 characters, build the prompt, and call
the gateway — a response is stripped, an exception becomes the failure
sentinel plus a 500-character excerpt. -/
def ai_extract (client : Option (List Char → Except (List Char) (List Char)))
    (idx : IBIndex) (field_name : List Char) (info : FieldMapping) : List Char :=
  match client with
  | none => "[AI extraction skipped - no API key provided]".data
  | some gw =>
    let notes := info.notes.getD []
    let fromSections :=
      (extract_section_numbers info.ib_section).filterMap fun n =>
        let c := get_section_content idx.sections n
        if c.isEmpty then none else some ("### Section ".data ++ n ++ "\n".data ++ c)
    let source_content :=
      if fromSections.isEmpty && !info.ib_pages.isEmpty then get_content_from_pages info.ib_pages
      else fromSections
    if source_content.isEmpty then "[No source content found in IB for AI extraction]".data
    else
      let combined := joinBlank source_content
      let combined :=
        if 10000 < combined.length then combined.take 10000 ++ "\n\n[Content truncated...]".data
        else combined
      let prompt := create_extraction_prompt field_name info.field_description combined notes
      match gw prompt with
      | .ok resp => pyStrip resp
      | .error e =>
        "[AI extraction failed: ".data ++ e ++ "]\n\nRaw content:\n".data ++
          combined.take 500 ++ "...".data

/-- `ContentMatcher.handle_unavailable_field(field_name, mapping_info)`: the
unavailability sentinel around `mapping_info.get('notes', 'External data
source required')` — the default fires only when the `notes` key is absent
from the record. No index lookup happens (the function does not take the
index at all; the source also reads `mapping_info.get('ib_section', 'N/A')`
into an unused local, dropped here). -/
def handle_unavailable_field (field_name : List Char) (info : FieldMapping) : List Char :=
  let notes := info.notes.getD "External data source required".data
  "[DATA NOT AVAILABLE IN IB - REQUIRES: ".data ++ notes ++ "]".data

/-- The strategy dispatch inside the per-field loop of
`ContentMatcher.match_all_fields`: `direct_extract` for `direct_extract`
records, `ai_extract` for `synthesis_required`, `handle_unavailable_field`
for everything else. The three resolvers are `Except`-valued parameters:
`Except.error` models an exception escaping the per-field body. -/
def dispatch_resolution
    (resolveDirect resolveAi resolveUnavailable :
      List Char → FieldMapping → Except (List Char) (List Char))
    (field_name : List Char) (info : FieldMapping) : Except (List Char) (List Char) :=
  if info.mapping_type = "direct_extract".data then resolveDirect field_name info
  else if info.mapping_type = "synthesis_required".data then resolveAi field_name info
  else resolveUnavailable field_name info

/-- `ContentMatcher.match_all_fields()`: walk the mapping in order; each
field's resolution runs inside a `try` whose handler stores
`[ERROR EXTRACTING CONTENT: <message>]` and lets the loop continue, so the
batch always completes with one entry per field. -/
def match_all_fields
    (resolveDirect resolveAi resolveUnavailable :
      List Char → FieldMapping → Except (List Char) (List Char))
    (mapping : List (List Char × FieldMapping)) : List (List Char × List Char) :=
  mapping.map fun p =>
    (p.1,
      match dispatch_resolution resolveDirect resolveAi resolveUnavailable p.1 p.2 with
      | .ok content => content
      | .error e => "[ERROR EXTRACTING CONTENT: ".data ++ e ++ "]".data)

/-- The index of the end-to-end scenario of the spec (section 8): a node
`1.2` titled `Indication` with pages 12 and 13, nested under top-level
section 1. -/
def c7_index : IBIndex :=
  ⟨[("1".data,
     { title := "INTRODUCTION".data
       pages := []
       subsections := [("1.2".data, { title := "Indication".data, pages := [12, 13] })] })]⟩

/-- The field-mapping record `parse_mapping_file` produces for the scenario
row `| [INSERT_INDICATION] Indication | Section 1.2 | 12-14 | |`. -/
def c7_rec : FieldMapping :=
  { field_description := "Indication".data
    ib_section := "Section 1.2".data
    ib_pages := [12, 13, 14]
    mapping_type := "direct_extract".data
    notes := some [] }

/-- A per-field resolver that always raises, for exercising the per-field
error boundary of `match_all_fields` at a concrete input. -/
def c2_direct_fail : List Char → FieldMapping → Except (List Char) (List Char) :=
  fun _ _ => Except.error "boom".data

/-- A per-field resolver that always succeeds (synthesis stand-in). -/
def c2_ai_ok : List Char → FieldMapping → Except (List Char) (List Char) :=
  fun _ _ => Except.ok "synthesized".data

/-- A per-field resolver that always succeeds (unavailable stand-in). -/
def c2_unavailable_ok : List Char → FieldMapping → Except (List Char) (List Char) :=
  fun _ _ => Except.ok "unavailable-note".data

/-- A concrete direct-extraction record for the error-boundary scenario. -/
def c2_recA : FieldMapping :=
  { field_description := "A".data
    ib_section := "Section 1".data
    ib_pages := [1]
    mapping_type := "direct_extract".data
    notes := some [] }

/-- A concrete unavailable record for the error-boundary scenario. -/
def c2_recB : FieldMapping :=
  { field_description := "B".data
    ib_section := "Not in IB".data
    ib_pages := []
    mapping_type := "unavailable".data
    notes := some [] }

/-- A two-field mapping whose first field's resolution raises. -/
def c2_mapping : List (List Char × FieldMapping) :=
  [("[INSERT_A]".data, c2_recA), ("[INSERT_B]".data, c2_recB)]

/-- The record `parse_mapping_file` produces for the concrete row
`| [INSERT_X2] F | Section 3 | 5 | |`. -/
def c10_rec : FieldMapping :=
  { field_description := "F".data
    ib_section := "Section 3".data
    ib_pages := [5]
    mapping_type := "direct_extract".data
    notes := some [] }

theorem mem_insertPage {a x : Nat} : ∀ {l : List Nat}, a ∈ insertPage x l ↔ a = x ∨ a ∈ l := by
  intro l
  induction l with
  | nil => simp [insertPage]
  | cons y ys ih =>
    simp only [insertPage]
    split
    · simp [List.mem_cons]
    · split
      · next h2 =>
        subst h2
        simp only [List.mem_cons]
        tauto
      · simp only [List.mem_cons, ih]
        tauto

theorem sorted_insertPage {x : Nat} :
    ∀ {l : List Nat}, List.Sorted (· < ·) l → List.Sorted (· < ·) (insertPage x l) := by
  intro l h
  induction l with
  | nil => simp [insertPage]
  | cons y ys ih =>
    rw [List.sorted_cons] at h
    obtain ⟨hy, hys⟩ := h
    simp only [insertPage]
    split
    · next hxy =>
      rw [List.sorted_cons]
      refine ⟨?_, ?_⟩
      · intro b hb
        rcases List.mem_cons.mp hb with rfl | hb2
        · exact hxy
        · exact lt_trans hxy (hy b hb2)
      · rw [List.sorted_cons]
        exact ⟨hy, hys⟩
    · split
      · rw [List.sorted_cons]
        exact ⟨hy, hys⟩
      · next hxy hxy2 =>
        rw [List.sorted_cons]
        refine ⟨?_, ih hys⟩
        intro b hb
        rcases mem_insertPage.mp hb with rfl | hb2
        · omega
        · exact hy b hb2

theorem sorted_sortedDedup (l : List Nat) : List.Sorted (· < ·) (sortedDedup l) := by
  suffices h : ∀ acc, List.Sorted (· < ·) acc →
      List.Sorted (· < ·) (l.foldl (fun a x => insertPage x a) acc) by
    exact h [] (by simp)
  induction l with
  | nil =>
    intro acc hacc
    simpa using hacc
  | cons y ys ih =>
    intro acc hacc
    exact ih _ (sorted_insertPage hacc)

theorem parse_pages_sorted (s : List Char) : List.Sorted (· < ·) (parse_pages s) := by
  unfold parse_pages
  split
  · simp
  · exact sorted_sortedDedup _

theorem tupleLe_total : ∀ a b : List Nat, tupleLe a b = true ∨ tupleLe b a = true := by
  intro a
  induction a with
  | nil =>
    intro b
    left
    rfl
  | cons x xs ih =>
    intro b
    cases b with
    | nil =>
      right
      rfl
    | cons y ys =>
      simp only [tupleLe]
      by_cases h1 : x < y
      · left
        rw [if_pos h1]
      · by_cases h2 : y < x
        · right
          rw [if_pos h2]
        · rw [if_neg h1, if_neg h2, if_neg h2, if_neg h1]
          exact ih ys

theorem tupleLe_trans :
    ∀ a b c : List Nat, tupleLe a b = true → tupleLe b c = true → tupleLe a c = true := by
  intro a
  induction a with
  | nil =>
    intro b c _ _
    rfl
  | cons x xs ih =>
    intro b c hab hbc
    cases b with
    | nil => simp [tupleLe] at hab
    | cons y ys =>
      cases c with
      | nil => simp [tupleLe] at hbc
      | cons z zs =>
        simp only [tupleLe] at hab hbc ⊢
        by_cases h1 : x < y
        · by_cases h2 : y < z
          · rw [if_pos (by omega)]
          · rw [if_neg h2] at hbc
            by_cases h3 : z < y
            · rw [if_pos h3] at hbc
              exact absurd hbc (by simp)
            · rw [if_pos (by omega)]
        · rw [if_neg h1] at hab
          by_cases h2 : y < x
          · rw [if_pos h2] at hab
            exact absurd hab (by simp)
          · rw [if_neg h2] at hab
            by_cases h3 : y < z
            · rw [if_pos (by omega)]
            · rw [if_neg h3] at hbc
              by_cases h4 : z < y
              · rw [if_pos h4] at hbc
                exact absurd hbc (by simp)
              · rw [if_neg h4] at hbc
                rw [if_neg (by omega), if_neg (by omega)]
                exact ih ys zs hab hbc

theorem mem_insertItem {β : Type} {z x : List Char × β} :
    ∀ {l : List (List Char × β)}, z ∈ insertItem x l ↔ z = x ∨ z ∈ l := by
  intro l
  induction l with
  | nil => simp [insertItem]
  | cons y ys ih =>
    simp only [insertItem]
    split
    · simp [List.mem_cons]
    · simp only [List.mem_cons, ih]
      tauto

theorem pairwise_insertItem {β : Type} {x : List Char × β} :
    ∀ {l : List (List Char × β)},
      l.Pairwise (fun a b => tupleLe (section_sort_key a.1) (section_sort_key b.1) = true) →
      (insertItem x l).Pairwise
        (fun a b => tupleLe (section_sort_key a.1) (section_sort_key b.1) = true) := by
  intro l h
  induction l with
  | nil => simp [insertItem]
  | cons y ys ih =>
    rw [List.pairwise_cons] at h
    obtain ⟨hy, hys⟩ := h
    simp only [insertItem]
    split
    · next hxy =>
      rw [List.pairwise_cons]
      refine ⟨?_, ?_⟩
      · intro b hb
        rcases List.mem_cons.mp hb with rfl | hb2
        · exact hxy
        · exact tupleLe_trans _ _ _ hxy (hy b hb2)
      · rw [List.pairwise_cons]
        exact ⟨hy, hys⟩
    · next hxy =>
      rw [List.pairwise_cons]
      refine ⟨?_, ih hys⟩
      intro b hb
      rcases mem_insertItem.mp hb with rfl | hb2
      · rcases tupleLe_total (section_sort_key b.1) (section_sort_key y.1) with h | h
        · exact absurd h (by simpa using hxy)
        · exact h
      · exact hy b hb2

theorem pairwise_sort_sections {β : Type} (items : List (List Char × β)) :
    (sort_sections items).Pairwise
      (fun a b => tupleLe (section_sort_key a.1) (section_sort_key b.1) = true) := by
  unfold sort_sections
  induction items with
  | nil => simp
  | cons y ys ih => exact pairwise_insertItem ih

theorem all_takeWhile (p : Char → Bool) : ∀ l : List Char, (l.takeWhile p).all p = true := by
  intro l
  induction l with
  | nil => rfl
  | cons c rest ih =>
    simp only [List.takeWhile]
    cases hc : p c with
    | false => rfl
    | true => simpa [hc] using ih

theorem placeholderAt_token {s p : List Char} (h : placeholderAt s = some p) :
    isPlaceholderToken p = true := by
  unfold placeholderAt at h
  split at h
  · next rest =>
    simp only at h
    split at h
    · split at h
      · exact absurd h (by simp)
      · next hrun =>
        simp only [Option.some.injEq] at h
        subst h
        simp only [List.cons_append, List.nil_append, isPlaceholderToken]
        have h1 : (rest.takeWhile isPlaceholderChar ++ [']']).getLast? = some ']' :=
          List.getLast?_concat _
        have h2 : (rest.takeWhile isPlaceholderChar ++ [']']).dropLast =
            rest.takeWhile isPlaceholderChar := List.dropLast_concat
        rw [h1, h2]
        simp only [beq_self_eq_true, Bool.true_and, Bool.and_eq_true, Bool.not_eq_true]
        exact ⟨by simpa using hrun, all_takeWhile _ _⟩
    · exact absurd h (by simp)
  · exact absurd h (by simp)

theorem findPlaceholder_token : ∀ {s p : List Char}, findPlaceholder s = some p →
    isPlaceholderToken p = true := by
  intro s
  induction s with
  | nil =>
    intro p h
    simp [findPlaceholder] at h
  | cons c rest ih =>
    intro p h
    rw [findPlaceholder] at h
    cases hpa : placeholderAt (c :: rest) with
    | some q =>
      rw [hpa] at h
      simp only [Option.some.injEq] at h
      subst h
      exact placeholderAt_token hpa
    | none =>
      rw [hpa] at h
      exact ih h

theorem determine_mapping_type_cases (ib_section notes : List Char) :
    determine_mapping_type ib_section notes = "direct_extract".data ∨
    determine_mapping_type ib_section notes = "synthesis_required".data ∨
    determine_mapping_type ib_section notes = "unavailable".data := by
  simp only [determine_mapping_type]
  split
  · right; right; rfl
  · split
    · right; left; rfl
    · split
      · right; left; rfl
      · left; rfl

theorem mem_dictInsert {β : Type} {kv : List Char × β} {k : List Char} {v : β} :
    ∀ {l : List (List Char × β)}, kv ∈ dictInsert k v l → kv = (k, v) ∨ kv ∈ l := by
  intro l
  induction l with
  | nil =>
    intro h
    simp only [dictInsert] at h
    exact Or.inl (by simpa using h)
  | cons y ys ih =>
    intro h
    simp only [dictInsert] at h
    split at h
    · rcases List.mem_cons.mp h with rfl | h2
      · exact Or.inl rfl
      · exact Or.inr (List.mem_cons.mpr (Or.inr h2))
    · rcases List.mem_cons.mp h with rfl | h2
      · exact Or.inr (List.mem_cons.mpr (Or.inl rfl))
      · rcases ih h2 with h3 | h3
        · exact Or.inl h3
        · exact Or.inr (List.mem_cons.mpr (Or.inr h3))

theorem dictInsert_ne_nil {β : Type} (k : List Char) (v : β) :
    ∀ l : List (List Char × β), dictInsert k v l ≠ [] := by
  intro l
  cases l with
  | nil => simp [dictInsert]
  | cons y ys =>
    simp only [dictInsert]
    split <;> simp

theorem parse_mapping_file_mem {P : List Char × FieldMapping → Prop}
    (hrow : ∀ line kv, parseRow line = some kv → P kv) :
    ∀ {content : List Char} {kv : List Char × FieldMapping},
      kv ∈ parse_mapping_file content → P kv := by
  have hstep : ∀ (lines : List (List Char)) (acc : List (List Char × FieldMapping)),
      (∀ kv ∈ acc, P kv) →
      ∀ kv ∈ lines.foldl
        (fun acc line =>
          match parseRow line with
          | some kv => dictInsert kv.1 kv.2 acc
          | none => acc) acc, P kv := by
    intro lines
    induction lines with
    | nil =>
      intro acc hacc kv hkv
      exact hacc kv hkv
    | cons l ls ih =>
      intro acc hacc kv hkv
      simp only [List.foldl_cons] at hkv
      refine ih _ ?_ kv hkv
      intro kv2 hkv2
      cases hpr : parseRow l with
      | none =>
        rw [hpr] at hkv2
        exact hacc kv2 hkv2
      | some kv3 =>
        rw [hpr] at hkv2
        rcases mem_dictInsert hkv2 with heq | h2
        · subst heq
          exact hrow l kv3 hpr
        · exact hacc kv2 h2
  intro content kv hkv
  exact hstep _ [] (by simp) kv hkv

theorem parseRow_shape {line : List Char} {k : List Char} {v : FieldMapping}
    (h : parseRow line = some (k, v)) :
    isPlaceholderToken k = true ∧
    (v.mapping_type = "direct_extract".data ∨ v.mapping_type = "synthesis_required".data ∨
      v.mapping_type = "unavailable".data) ∧
    List.Sorted (· < ·) v.ib_pages ∧ (∃ n, v.notes = some n) := by
  simp only [parseRow] at h
  split at h
  · exact absurd h (by simp)
  · split at h
    · exact absurd h (by simp)
    · split at h
      · exact absurd h (by simp)
      · split at h
        · exact absurd h (by simp)
        · next ph hfp =>
          simp only [Option.some.injEq, Prod.mk.injEq] at h
          obtain ⟨hk, hv⟩ := h
          subst hk
          subst hv
          refine ⟨findPlaceholder_token hfp, ?_, ?_, ⟨_, rfl⟩⟩
          · exact determine_mapping_type_cases _ _
          · exact parse_pages_sorted _

theorem foldl_rows_empty_iff :
    ∀ (lines : List (List Char)) (acc : List (List Char × FieldMapping)),
      (lines.foldl (fun acc line =>
        match parseRow line with
        | some kv => dictInsert kv.1 kv.2 acc
        | none => acc) acc) = [] ↔
      acc = [] ∧ ∀ line ∈ lines, parseRow line = none := by
  intro lines
  induction lines with
  | nil =>
    intro acc
    simp
  | cons l ls ih =>
    intro acc
    simp only [List.foldl_cons, List.forall_mem_cons]
    rw [ih]
    cases hpr : parseRow l with
    | none =>
      simp [hpr]
    | some kv =>
      have hne := dictInsert_ne_nil kv.1 kv.2 acc
      simp [hpr, hne]

/-- C1: strategy classification precedence — whenever an unavailable keyword
occurs (case-insensitively) in the section-reference cell or the notes cell
of a mapping row, `determine_mapping_type` classifies the row `unavailable`,
even when a synthesis keyword such as `summarize` is also present; in
particular a row whose notes contain `summarize` and whose section reference
contains `external source` classifies as unavailable, never as
synthesis-required. -/
theorem claim_unavailable_precedence (ib_section notes : List Char)
    (h : hasUnavailableKeyword (pyLower ib_section) (pyLower notes) = true) :
    determine_mapping_type ib_section notes = "unavailable".data ∧
    determine_mapping_type "Refer to external source".data "Please summarize".data =
      "unavailable".data ∧
    determine_mapping_type "Refer to external source".data "Please summarize".data ≠
      "synthesis_required".data := by
  refine ⟨?_, by decide, by decide⟩
  simp only [determine_mapping_type]
  rw [if_pos h]

/-- C1 witness: the precedence theorem applied to a concrete row whose notes
contain a synthesis keyword while an unavailable keyword is present. -/
theorem claim_unavailable_precedence_witness :
    determine_mapping_type "Not in IB".data "summarize".data = "unavailable".data ∧
    determine_mapping_type "Refer to external source".data "Please summarize".data =
      "unavailable".data ∧
    determine_mapping_type "Refer to external source".data "Please summarize".data ≠
      "synthesis_required".data :=
  claim_unavailable_precedence "Not in IB".data "summarize".data (by decide)

/-- C2: `match_all_fields` is total (it returns a plain list, never an
exception), produces exactly one result entry per input placeholder with the
placeholders preserved in order, and whenever the dispatched per-field
resolution raises (`Except.error e`), the stored content for that field is
`[ERROR EXTRACTING CONTENT: <message>]` while every other field is still
resolved independently (each entry depends only on its own field). -/
theorem claim_match_all_fields_error_isolation
    (rd ra ru : List Char → FieldMapping → Except (List Char) (List Char))
    (mapping : List (List Char × FieldMapping)) :
    (match_all_fields rd ra ru mapping).length = mapping.length ∧
    (match_all_fields rd ra ru mapping).map Prod.fst = mapping.map Prod.fst ∧
    (∀ (i : Nat) (fn : List Char) (info : FieldMapping) (e : List Char),
      mapping[i]? = some (fn, info) →
      dispatch_resolution rd ra ru fn info = Except.error e →
      (match_all_fields rd ra ru mapping)[i]? =
        some (fn, "[ERROR EXTRACTING CONTENT: ".data ++ e ++ "]".data)) ∧
    (∀ (i : Nat) (fn : List Char) (info : FieldMapping) (c : List Char),
      mapping[i]? = some (fn, info) →
      dispatch_resolution rd ra ru fn info = Except.ok c →
      (match_all_fields rd ra ru mapping)[i]? = some (fn, c)) := by
  refine ⟨by simp [match_all_fields], ?_, ?_, ?_⟩
  · unfold match_all_fields
    induction mapping with
    | nil => rfl
    | cons p ps ih =>
      simp only [List.map_cons, List.cons.injEq]
      exact ⟨trivial, ih⟩
  · intro i fn info e hi hd
    simp only [match_all_fields, List.getElem?_map, hi]
    simp [hd]
  · intro i fn info c hi hd
    simp only [match_all_fields, List.getElem?_map, hi]
    simp [hd]

/-- C2 witness: on a concrete two-field mapping whose first (direct) field's
resolution raises `boom`, the batch still yields both entries — the first
with the error sentinel, the second resolved normally. -/
theorem claim_match_all_fields_error_isolation_witness :
    (match_all_fields c2_direct_fail c2_ai_ok c2_unavailable_ok c2_mapping)[0]? =
      some ("[INSERT_A]".data, "[ERROR EXTRACTING CONTENT: boom]".data) ∧
    (match_all_fields c2_direct_fail c2_ai_ok c2_unavailable_ok c2_mapping)[1]? =
      some ("[INSERT_B]".data, "unavailable-note".data) :=
  ⟨(claim_match_all_fields_error_isolation c2_direct_fail c2_ai_ok c2_unavailable_ok
      c2_mapping).2.2.1 0 "[INSERT_A]".data c2_recA "boom".data rfl rfl,
   (claim_match_all_fields_error_isolation c2_direct_fail c2_ai_ok c2_unavailable_ok
      c2_mapping).2.2.2 1 "[INSERT_B]".data c2_recB "unavailable-note".data rfl rfl⟩

/-- C3: page parsing returns the empty list on empty, `N/A` and `-` input,
always yields a strictly ascending duplicate-free list, and on
`34-36, 40, 40` yields `[34, 35, 36, 40]` (dash ranges inclusive,
duplicates removed, ascending order). -/
theorem claim_parse_pages_spec (s : List Char) :
    parse_pages [] = [] ∧ parse_pages "N/A".data = [] ∧ parse_pages "-".data = [] ∧
    List.Sorted (· < ·) (parse_pages s) ∧ (parse_pages s).Nodup ∧
    parse_pages "34-36, 40, 40".data = [34, 35, 36, 40] :=
  ⟨rfl, rfl, rfl, parse_pages_sorted s, (parse_pages_sorted s).nodup, by decide⟩

/-- C4 counterexample: on an input with zero parseable rows,
`parse_mapping_file` does not fail — the source has no `MalformedSpecification`
(or any other) failure path; it returns the empty mapping and merely prints
the count, so "fails with MalformedSpecification if the input contains zero
parseable rows" is false on the code. -/
theorem claim_parse_zero_rows_counterexample :
    parse_mapping_file "# Mapping file\nNo table rows here.".data = [] := by decide

/-- C4 (amended): parsing is total and never signals an error; it returns
the empty mapping exactly when the input contains zero parseable rows, and
for every input yielding at least one field mapping it returns that
(non-empty) mapping normally. -/
theorem claim_parse_empty_iff_no_rows (content : List Char) :
    parse_mapping_file content = [] ↔
      ∀ line ∈ content.splitOn '\n', parseRow line = none := by
  unfold parse_mapping_file
  rw [foldl_rows_empty_iff]
  simp

/-- C5: for a synthesis-required field with no synthesis gateway configured,
`ai_extract` returns exactly the skip sentinel; the result is a constant
independent of the index, the field and the record, so no index or page
lookup can have taken place before returning. -/
theorem claim_ai_extract_no_key (idx : IBIndex) (fn : List Char) (info : FieldMapping) :
    ai_extract none idx fn info = "[AI extraction skipped - no API key provided]".data := rfl

/-- C6 counterexample: a parser-produced unavailable record with an empty
notes cell resolves to `[DATA NOT AVAILABLE IN IB - REQUIRES: ]` — the
default phrase is not substituted for an empty notes cell (it would fire
only for an absent `notes` key, which the parser never produces), refuting
"…or a default phrase when the notes cell is empty". -/
theorem claim_unavailable_empty_notes_counterexample :
    parse_mapping_file "| [INSERT_X] Field | Not in IB | - | |".data =
      [("[INSERT_X]".data,
        { field_description := "Field".data
          ib_section := "Not in IB".data
          ib_pages := []
          mapping_type := "unavailable".data
          notes := some [] })] ∧
    handle_unavailable_field "[INSERT_X]".data
      { field_description := "Field".data
        ib_section := "Not in IB".data
        ib_pages := []
        mapping_type := "unavailable".data
        notes := some [] } = "[DATA NOT AVAILABLE IN IB - REQUIRES: ]".data ∧
    "[DATA NOT AVAILABLE IN IB - REQUIRES: ]".data ≠
      "[DATA NOT AVAILABLE IN IB - REQUIRES: External data source required]".data := by
  refine ⟨by decide, by decide, by decide⟩

/-- C6 (amended): for every field with a stored notes string (as every
parser-produced record has — second conjunct), resolution returns
`[DATA NOT AVAILABLE IN IB - REQUIRES: <notes>]` with the notes inserted
verbatim (an empty notes cell stays empty; the coded default applies only to
an absent notes key); no index lookup is attempted (the resolver does not
receive the index at all). -/
theorem claim_unavailable_notes_verbatim (fn n : List Char) (info : FieldMapping)
    (h : info.notes = some n) :
    handle_unavailable_field fn info =
      "[DATA NOT AVAILABLE IN IB - REQUIRES: ".data ++ n ++ "]".data ∧
    ∀ (content : List Char) (kv : List Char × FieldMapping),
      kv ∈ parse_mapping_file content → kv.2.notes ≠ none := by
  constructor
  · simp [handle_unavailable_field, h]
  · intro content kv hkv
    have hmem := parse_mapping_file_mem (P := fun kv => ∃ m, kv.2.notes = some m)
      (fun line kv2 hrow => (parseRow_shape hrow).2.2.2) hkv
    obtain ⟨m, hm⟩ := hmem
    simp [hm]

/-- C6 witness: the amended theorem applied to a concrete record with a
non-empty stored notes string. -/
theorem claim_unavailable_notes_verbatim_witness :
    handle_unavailable_field "[INSERT_X]".data
      { field_description := "Field".data
        ib_section := "Not in IB".data
        ib_pages := []
        mapping_type := "unavailable".data
        notes := some "needs safety database".data } =
      "[DATA NOT AVAILABLE IN IB - REQUIRES: ".data ++ "needs safety database".data ++
        "]".data ∧
    ∀ (content : List Char) (kv : List Char × FieldMapping),
      kv ∈ parse_mapping_file content → kv.2.notes ≠ none :=
  claim_unavailable_notes_verbatim "[INSERT_X]".data "needs safety database".data _ rfl

/-- C7 counterexample: for the scenario row
`| [INSERT_INDICATION] Indication | Section 1.2 | 12-14 | |` against an
index with node `1.2` titled `Indication` and pages `[12, 13]`, the row does
classify as direct extraction, but the resolved content does not begin with
`Indication\n\n`: `_clean_text` collapses the blank line after the title to
a single space along with all other whitespace. -/
theorem claim_direct_extract_scenario_counterexample :
    parse_mapping_file "| [INSERT_INDICATION] Indication | Section 1.2 | 12-14 | |".data =
      [("[INSERT_INDICATION]".data, c7_rec)] ∧
    c7_rec.mapping_type = "direct_extract".data ∧
    (direct_extract c7_index c7_rec).take 12 ≠ "Indication\n\n".data := by
  refine ⟨by decide, by decide, by decide⟩

/-- C7 (amended): in the same scenario the field classifies as direct
extraction and the resolved content is the fully whitespace-normalized
string — the node title followed by a single space and the space-joined page
contents: `Indication [Content from page 12] [Content from page 13]`. -/
theorem claim_direct_extract_scenario :
    direct_extract c7_index c7_rec =
      "Indication [Content from page 12] [Content from page 13]".data ∧
    (direct_extract c7_index c7_rec).take 11 = "Indication ".data := by
  refine ⟨by decide, by decide⟩

/-- C8: for a mapping row with no unavailable keyword present, the row
classifies as synthesis-required exactly when the notes cell
(case-insensitively) contains a synthesis keyword or the section-reference
cell contains `+`, a comma, or (case-insensitively) the literal string
`and`; otherwise it classifies as direct extraction. -/
theorem claim_synthesis_classification (ib_section notes : List Char)
    (h : hasUnavailableKeyword (pyLower ib_section) (pyLower notes) = false) :
    (determine_mapping_type ib_section notes = "synthesis_required".data ↔
      (hasSynthesisKeyword (pyLower notes) ||
        mentionsMultipleSections ib_section (pyLower ib_section)) = true) ∧
    (determine_mapping_type ib_section notes = "direct_extract".data ↔
      (hasSynthesisKeyword (pyLower notes) ||
        mentionsMultipleSections ib_section (pyLower ib_section)) = false) := by
  have hsd : "synthesis_required".data ≠ "direct_extract".data := by decide
  have hds : "direct_extract".data ≠ "synthesis_required".data := by decide
  simp only [determine_mapping_type]
  rw [if_neg (by simp [h])]
  cases h1 : hasSynthesisKeyword (pyLower notes) with
  | true =>
    rw [if_pos rfl]
    exact ⟨⟨fun _ => by simp, fun _ => rfl⟩,
           ⟨fun hc => absurd hc hsd, fun hc => by simp at hc⟩⟩
  | false =>
    rw [if_neg (by simp)]
    cases h2 : mentionsMultipleSections ib_section (pyLower ib_section) with
    | true =>
      rw [if_pos rfl]
      exact ⟨⟨fun _ => by simp, fun _ => rfl⟩,
             ⟨fun hc => absurd hc hsd, fun hc => by simp at hc⟩⟩
    | false =>
      rw [if_neg (by simp)]
      exact ⟨⟨fun hc => absurd hc hds, fun hc => by simp at hc⟩,
             ⟨fun _ => by simp, fun _ => rfl⟩⟩

/-- C8 witness: the classification theorem applied to a concrete row whose
section reference names two sections joined by `and`. -/
theorem claim_synthesis_classification_witness :
    (determine_mapping_type "Section 4.1 and 4.2".data "".data = "synthesis_required".data ↔
      (hasSynthesisKeyword (pyLower "".data) ||
        mentionsMultipleSections "Section 4.1 and 4.2".data
          (pyLower "Section 4.1 and 4.2".data)) = true) ∧
    (determine_mapping_type "Section 4.1 and 4.2".data "".data = "direct_extract".data ↔
      (hasSynthesisKeyword (pyLower "".data) ||
        mentionsMultipleSections "Section 4.1 and 4.2".data
          (pyLower "Section 4.1 and 4.2".data)) = false) :=
  claim_synthesis_classification "Section 4.1 and 4.2".data "".data (by decide)

/-- C9: section enumeration order is by the tuple of dotted numeric
components, not lexical string order — the sorted section items are pairwise
ordered by numeric-tuple comparison on their keys, and concretely `1.9`
sorts before `1.10`, which sorts before `2` (their keys being `[1,9]`,
`[1,10]` and `[2]`). -/
theorem claim_section_sort_order (sections : List (List Char × FlatSection)) :
    (sort_sections sections).Pairwise
      (fun a b => tupleLe (section_sort_key a.1) (section_sort_key b.1) = true) ∧
    (sort_sections
        [("2".data, FlatSection.mk "C".data [] []),
         ("1.10".data, FlatSection.mk "B".data [] []),
         ("1.9".data, FlatSection.mk "A".data [] [])]).map Prod.fst =
      ["1.9".data, "1.10".data, "2".data] ∧
    section_sort_key "1.9".data = [1, 9] ∧
    section_sort_key "1.10".data = [1, 10] ∧
    section_sort_key "2".data = [2] :=
  ⟨pairwise_sort_sections sections, by decide, by decide, by decide, by decide⟩

/-- C10: implicit invariants of the parsed mapping — every key is a
placeholder token matching `[INSERT_<A-Z0-9_>+]`, every record's
mapping type is one of the three strategy strings, and every record's page
list is strictly ascending and duplicate-free. -/
theorem claim_parse_record_invariants (content : List Char) (k : List Char) (v : FieldMapping)
    (h : (k, v) ∈ parse_mapping_file content) :
    isPlaceholderToken k = true ∧
    (v.mapping_type = "direct_extract".data ∨ v.mapping_type = "synthesis_required".data ∨
      v.mapping_type = "unavailable".data) ∧
    List.Sorted (· < ·) v.ib_pages ∧ v.ib_pages.Nodup := by
  have hmem := parse_mapping_file_mem (P := fun kv =>
      isPlaceholderToken kv.1 = true ∧
      (kv.2.mapping_type = "direct_extract".data ∨
        kv.2.mapping_type = "synthesis_required".data ∨
        kv.2.mapping_type = "unavailable".data) ∧
      List.Sorted (· < ·) kv.2.ib_pages)
    (fun line kv2 hrow => by
      obtain ⟨h1, h2, h3, -⟩ := parseRow_shape hrow
      exact ⟨h1, h2, h3⟩) h
  obtain ⟨h1, h2, h3⟩ := hmem
  exact ⟨h1, h2, h3, h3.nodup⟩

/-- C10 witness: the invariants theorem applied to the entry parsed from the
concrete row `| [INSERT_X2] F | Section 3 | 5 | |`. -/
theorem claim_parse_record_invariants_witness :
    isPlaceholderToken "[INSERT_X2]".data = true ∧
    (c10_rec.mapping_type = "direct_extract".data ∨
      c10_rec.mapping_type = "synthesis_required".data ∨
      c10_rec.mapping_type = "unavailable".data) ∧
    List.Sorted (· < ·) c10_rec.ib_pages ∧ c10_rec.ib_pages.Nodup :=
  claim_parse_record_invariants "| [INSERT_X2] F | Section 3 | 5 | |".data
    "[INSERT_X2]".data c10_rec (by decide)
